import Mathlib

/-!
Verification development for the amp-orchestra core: a shallow embedding of
the batch/session orchestration engine (`desktop-ui/src-tauri/src/batch_engine.rs`),
the toolbox resolution engine (`desktop-ui/src-tauri/src/toolbox_resolver.rs`)
and the environment composer (`desktop-ui/src-tauri/src/env_composer.rs`).

Modelling conventions:
* filesystem paths are lists of path components (`List String`); canonical
  paths are modelled directly (the embedding receives the canonicalized form
  that `fs::canonicalize` would produce);
* file contents are byte lists (`List Nat`), so `meta.len()` is the list length;
* `HashMap` values are association lists whose insertion replaces any previous
  binding of the same key (`upsertA`), matching key-based map semantics;
* stateful filesystem effects of the resolver (files copied into the merged
  runtime directory) are threaded explicitly as a `ResolveSt` value which is
  returned even when the resolver fails, mirroring the on-disk state that the
  Rust code leaves behind on an error;
* `f32` percentage arithmetic is modelled over `ℚ`;
* `tokio::time::Instant` timestamps are modelled as `Option Nat`.
-/

/-- Per-session status, from `enum SessionStatus` in `batch_engine.rs`. -/
inductive SessionStatus
  | pending
  | running
  | completed
  | failed
deriving DecidableEq

/-- Batch status, from `enum BatchStatus` in `batch_engine.rs`. -/
inductive BatchStatus
  | pending
  | running
  | completed
  | failed
  | cancelled
deriving DecidableEq

/-- From `struct RetryPolicy` in `batch_engine.rs`. -/
structure RetryPolicy where
  max_attempts : Nat
  backoff_ms : Nat
deriving DecidableEq

/-- From `struct BatchConfig` in `batch_engine.rs`; repositories are path strings. -/
structure BatchConfig where
  name : String
  prompts : List String
  repositories : List String
  concurrency : Nat
  timeout_sec : Nat
  retry_policy : Option RetryPolicy
  agent_mode : Option String
  toolbox_path : Option String
deriving DecidableEq

/-- From `struct SessionMetrics` in `batch_engine.rs`. -/
structure SessionMetrics where
  iterations : Nat
  tokens_used : Nat
  tools_invoked : Nat
  execution_time_ms : Nat
deriving DecidableEq

/-- From `struct BatchSessionResult` in `batch_engine.rs`. -/
structure BatchSessionResult where
  session_id : String
  status : SessionStatus
  start_time : Option Nat
  end_time : Option Nat
  error_message : Option String
  metrics : Option SessionMetrics
deriving DecidableEq

/-- From `struct BatchExecution` in `batch_engine.rs`; the `sessions` HashMap is
an association list, and the `progress_tx` channel is modelled by returning the
list of pushed snapshots from the operations that push. -/
structure BatchExecution where
  id : String
  config : BatchConfig
  status : BatchStatus
  sessions : List (String × BatchSessionResult)
  start_time : Option Nat
deriving DecidableEq

/-- From `struct BatchProgress` in `batch_engine.rs`; `progress_percent` is an
`f32` in the source, modelled over `ℚ`. -/
structure BatchProgress where
  batch_id : String
  total_sessions : Nat
  completed_sessions : Nat
  failed_sessions : Nat
  running_sessions : Nat
  progress_percent : ℚ
  status : BatchStatus
deriving DecidableEq

/-- From `enum BatchError` in `batch_engine.rs`. -/
inductive BatchError
  | invalidConfig (msg : String)
  | batchNotFound (id : String)
  | sessionError (msg : String)
  | databaseError (msg : String)
deriving DecidableEq

/-- Key-based map insertion on an association list: any previous binding of the
same key is removed and the new binding appended (HashMap::insert semantics;
also the resolver's remove-then-copy of a merged `bin/` entry). -/
def upsertA {α β : Type} [BEq α] (m : List (α × β)) (k : α) (v : β) : List (α × β) :=
  (m.filter (fun kv => kv.1 != k)) ++ [(k, v)]

/-- `BatchEngine::calculate_progress` (batch_engine.rs lines 330-357):
counts sessions by status over the `sessions` map and computes the percentage
from completed+failed over `sessions.len()`. -/
def calculate_progress (batch_id : String) (batch : BatchExecution) : BatchProgress :=
  let total_sessions := batch.sessions.length
  let completed_sessions :=
    (batch.sessions.filter (fun s => s.2.status == SessionStatus.completed)).length
  let failed_sessions :=
    (batch.sessions.filter (fun s => s.2.status == SessionStatus.failed)).length
  let running_sessions :=
    (batch.sessions.filter (fun s => s.2.status == SessionStatus.running)).length
  let progress_percent : ℚ :=
    if 0 < total_sessions then
      (((completed_sessions : ℚ) + (failed_sessions : ℚ)) / (total_sessions : ℚ)) * 100
    else 0
  { batch_id := batch_id
    total_sessions := total_sessions
    completed_sessions := completed_sessions
    failed_sessions := failed_sessions
    running_sessions := running_sessions
    progress_percent := progress_percent
    status := batch.status }

/-- Validation and registration part of `BatchEngine::start_batch`
(batch_engine.rs lines 118-168); the fresh UUID is passed in as `batch_id`.
Returns the registered `BatchExecution` together with the handle's
`total_sessions` count. -/
def start_batch (batch_id : String) (config : BatchConfig) :
    Except BatchError (BatchExecution × Nat) :=
  if config.prompts.isEmpty then
    .error (.invalidConfig "No prompts provided")
  else if config.repositories.isEmpty then
    .error (.invalidConfig "No repositories provided")
  else
    let total_sessions := config.prompts.length * config.repositories.length
    .ok ({ id := batch_id
           config := config
           status := BatchStatus.pending
           sessions := []
           start_time := none }, total_sessions)

/-- `BatchEngine::get_batch_status` (batch_engine.rs lines 375-383) over the
active-batch registry. -/
def get_batch_status (reg : List (String × BatchExecution)) (batch_id : String) :
    Except BatchError BatchProgress :=
  match reg.lookup batch_id with
  | some b => .ok (calculate_progress batch_id b)
  | none => .error (.batchNotFound batch_id)

/-- `BatchEngine::list_active_batches` (batch_engine.rs lines 385-390). -/
def list_active_batches (reg : List (String × BatchExecution)) : List BatchProgress :=
  reg.map (fun kv => calculate_progress kv.1 kv.2)

/-- `BatchEngine::cancel_batch` (batch_engine.rs lines 359-373): sets the
status to `Cancelled` and pushes one progress snapshot. Returns the updated
registry and the snapshots pushed to the progress channel. -/
def cancel_batch (reg : List (String × BatchExecution)) (batch_id : String) :
    Except BatchError (List (String × BatchExecution) × List BatchProgress) :=
  match reg.lookup batch_id with
  | some b =>
    let b' := { b with status := BatchStatus.cancelled }
    .ok (upsertA reg batch_id b', [calculate_progress batch_id b'])
  | none => .error (.batchNotFound batch_id)

/-- Number of `Failed` sessions, as counted by the final-status block of
`execute_batch_internal` (batch_engine.rs lines 311-313). -/
def count_failed (sessions : List (String × BatchSessionResult)) : Nat :=
  (sessions.filter (fun s => s.2.status == SessionStatus.failed)).length

/-- Final-status block of `BatchEngine::execute_batch_internal`
(batch_engine.rs lines 307-325), run after all per-session tasks have joined:
sets the batch status from the failed count (with no check of the current
status) and pushes one final progress snapshot computed after the update.
Returns the updated execution and the pushed snapshots. -/
def finalize_batch (batch_id : String) (b : BatchExecution) :
    BatchExecution × List BatchProgress :=
  let failed_count := count_failed b.sessions
  let status := if failed_count = 0 then BatchStatus.completed else BatchStatus.failed
  let b' := { b with status := status }
  (b', [calculate_progress batch_id b'])

/-- The engine-wide concurrency ceiling, `concurrency_limit: 8` set in
`BatchEngine::new` (batch_engine.rs line 114). -/
def engine_concurrency_limit : Nat := 8

/-- Permits of the per-batch semaphore,
`Semaphore::new(config.concurrency.min(self.concurrency_limit))`
(batch_engine.rs line 190). -/
def session_permits (config : BatchConfig) : Nat :=
  min config.concurrency engine_concurrency_limit

/-- Abstract state of the driver task of `execute_batch_internal` together
with its session semaphore: `remaining` is the list of creation outcomes of
the not-yet-processed (prompt, repository) pairs (`true` = `create_session`
succeeds), `available` the semaphore's free permits, `tasks` the number of
spawned, not yet finished session tasks, and `status` the batch status. -/
structure DriverState where
  remaining : List Bool
  available : Nat
  tasks : Nat
  status : BatchStatus
deriving DecidableEq

/-- Transitions of the driver task (batch_engine.rs lines 190-325): a failed
creation records the failure and consumes no permit; a successful creation
must acquire a permit (`acquire_owned`, line 232) before its task is spawned;
a finishing task releases its permit; once all pairs are processed and all
tasks have joined, the final status (Completed or Failed) is written. -/
inductive DriverStep : DriverState → DriverState → Prop
  | createFail (rest : List Bool) (a t : Nat) (st : BatchStatus) :
      DriverStep ⟨false :: rest, a, t, st⟩ ⟨rest, a, t, st⟩
  | createOk (rest : List Bool) (a t : Nat) (st : BatchStatus) :
      DriverStep ⟨true :: rest, a + 1, t, st⟩ ⟨rest, a, t + 1, st⟩
  | taskDone (rem : List Bool) (a t : Nat) (st : BatchStatus) :
      DriverStep ⟨rem, a, t + 1, st⟩ ⟨rem, a + 1, t, st⟩
  | finalize (a : Nat) (st st' : BatchStatus)
      (h : st' = BatchStatus.completed ∨ st' = BatchStatus.failed) :
      DriverStep ⟨[], a, 0, st⟩ ⟨[], a, 0, st'⟩

/-- Driver state right after the `Pending → Running` transition
(batch_engine.rs lines 181-190): semaphore freshly created with
`min(config.concurrency, engine ceiling)` permits, no tasks spawned. -/
def driver_init (config : BatchConfig) (outcomes : List Bool) : DriverState :=
  ⟨outcomes, session_permits config, 0, BatchStatus.running⟩

/-- Reachability of a driver state from the initial state. -/
def driver_reachable (config : BatchConfig) (outcomes : List Bool) (s : DriverState) : Prop :=
  Relation.ReflTransGen DriverStep (driver_init config outcomes) s

/-- Render a component path as the display string of an absolute path. -/
def pathStr (p : List String) : String :=
  p.foldl (fun acc c => acc ++ "/" ++ c) ""

/-- A node found while walking a toolbox root's `bin/` subtree: a regular file
with its byte content, a symlink with its resolved canonicalized target
(absolute, as components), or a directory. -/
inductive FsNode
  | file (content : List Nat)
  | symlink (target : List String)
  | dir
deriving DecidableEq

/-- One entry of the recursive walk of a root's `bin/` subtree: its path
relative to `<root>/bin` and the node found there. -/
structure BinEntry where
  rel : List String
  node : FsNode
deriving DecidableEq

/-- A canonicalized toolbox root: its absolute path, whether `<root>/bin`
exists, and the entries of the walk of `<root>/bin` in walk order. -/
structure ToolboxRoot where
  path : List String
  hasBin : Bool
  entries : List BinEntry
deriving DecidableEq

/-- The error message of `validate_symlink_security`
(toolbox_resolver.rs lines 129-132), naming the offending symlink, its
canonical target and the canonical root. -/
def escape_message (symlink_path target root : String) : String :=
  "symlink target escapes toolbox root: " ++
    (symlink_path ++ (" -> " ++ (target ++ (" (root: " ++ (root ++ ")")))))

/-- `msg` contains `pat` as a contiguous substring. -/
def mentions (msg pat : String) : Prop :=
  ∃ l r : String, msg = l ++ (pat ++ r)

/-- `validate_symlink_security` (toolbox_resolver.rs lines 98-139): the
symlink's resolved, canonicalized target must still lie inside the
canonicalized root (`Path::starts_with` on components), else a security
error naming the symlink and its target is raised. -/
def validate_symlink_security (symlink_path target root : List String) :
    Except String (List String) :=
  if root.isPrefixOf target then .ok target
  else .error (escape_message (pathStr symlink_path) (pathStr target) (pathStr root))

/-- Walk of `validate_directory_symlinks` over the entries of a root's `bin/`
subtree: the first escaping symlink aborts with its error message. -/
def validate_entries (root_path : List String) : List BinEntry → Option String
  | [] => none
  | e :: rest =>
    match e.node with
    | FsNode.symlink t =>
      match validate_symlink_security (root_path ++ ["bin"] ++ e.rel) t root_path with
      | .error m => some m
      | .ok _ => validate_entries root_path rest
    | _ => validate_entries root_path rest

/-- `validate_directory_symlinks` (toolbox_resolver.rs lines 142-151). -/
def validate_directory_symlinks (r : ToolboxRoot) : Option String :=
  validate_entries r.path r.entries

/-- Digits-only string parse, the embedding of Rust's `str::parse::<u64>()`
for the in-range inputs the limits use. -/
def parse_u64 (s : String) : Option Nat :=
  if s.data.isEmpty then none
  else if s.data.all Char.isDigit then
    some (s.data.foldl (fun acc c => acc * 10 + (c.toNat - '0'.toNat)) 0)
  else none

/-- `limits()` (toolbox_resolver.rs lines 82-90) reading the process
environment: `AMP_TOOLBOX_MAX_FILES` (default 5000) and
`AMP_TOOLBOX_MAX_BYTES` (default `AMP_TOOLBOX_MAX_MB` (default 250) MiB). -/
def limits (env : List (String × String)) : Nat × Nat :=
  let max_files := ((env.lookup "AMP_TOOLBOX_MAX_FILES").bind parse_u64).getD 5000
  let max_bytes := ((env.lookup "AMP_TOOLBOX_MAX_BYTES").bind parse_u64).getD
    ((((env.lookup "AMP_TOOLBOX_MAX_MB").bind parse_u64).getD 250) * 1024 * 1024)
  (max_files, max_bytes)

/-- The state of the merged runtime directory while the resolver copies:
`merged` maps each relative path of the merged `bin/` to the content of the
file placed there, plus the running counters and the provenance list
`bin_entries` (`"{idx}:{root}:{rel}"` triples). This value is returned even on
failure, mirroring the partially populated directory left on disk. -/
structure ResolveSt where
  merged : List (List String × List Nat)
  files_count : Nat
  bytes_total : Nat
  bin_entries : List (Nat × List String × List String)
deriving DecidableEq

/-- The freshly created, empty `<digest>/bin/` directory. -/
def ResolveSt.empty : ResolveSt := ⟨[], 0, 0, []⟩

/-- The copy pass of `resolve_toolboxes` over one root's walk
(toolbox_resolver.rs lines 215-238): symlinks and directories are skipped;
each regular file is checked against the running file-count and byte-size
ceilings (aborting with a limit error that leaves the state as is), then
placed into the merged `bin/` replacing any same-named entry. -/
def copy_files (max_files max_bytes : Nat) (idx : Nat) (root_path : List String) :
    List BinEntry → ResolveSt → ResolveSt × Option String
  | [], st => (st, none)
  | e :: rest, st =>
    match e.node with
    | FsNode.symlink _ => copy_files max_files max_bytes idx root_path rest st
    | FsNode.dir => copy_files max_files max_bytes idx root_path rest st
    | FsNode.file content =>
      let sz := content.length
      if max_files < st.files_count + 1 then (st, some "toolbox file limit exceeded")
      else if max_bytes < st.bytes_total + sz then (st, some "toolbox size limit exceeded")
      else
        copy_files max_files max_bytes idx root_path rest
          ⟨upsertA st.merged e.rel content, st.files_count + 1, st.bytes_total + sz,
            st.bin_entries ++ [(idx, root_path, e.rel)]⟩

/-- The per-root loop of `resolve_toolboxes` (toolbox_resolver.rs
lines 207-239): roots are processed in caller-supplied order; a root without a
`bin/` is skipped; otherwise its symlinks are all validated first, and only
then are its files copied. -/
def process_roots (max_files max_bytes : Nat) :
    Nat → List ToolboxRoot → ResolveSt → ResolveSt × Option String
  | _, [], st => (st, none)
  | idx, r :: rest, st =>
    if r.hasBin then
      match validate_directory_symlinks r with
      | some e => (st, some e)
      | none =>
        match copy_files max_files max_bytes idx r.path r.entries st with
        | (st', some e) => (st', some e)
        | (st', none) => process_roots max_files max_bytes (idx + 1) rest st'
    else process_roots max_files max_bytes (idx + 1) rest st

/-- From `struct ToolboxManifest` (toolbox_resolver.rs lines 12-19). -/
structure ToolboxManifest where
  sources : List (List String)
  files_count : Nat
  bytes_total : Nat
  copy_mode : Bool
  bin_entries : List (Nat × List String × List String)
deriving DecidableEq

/-- A successful resolve: the manifest plus the guard's `keep` flag. -/
structure ResolvedToolbox where
  manifest : ToolboxManifest
  guard_keep : Bool
deriving DecidableEq

/-- `COPY_MODE` on non-Windows (toolbox_resolver.rs lines 59-62): `false`. -/
def copy_mode_flag : Bool := false

/-- `resolve_toolboxes` (toolbox_resolver.rs lines 175-251) over canonicalized
roots: rejects an empty root list, reads the limits from the environment,
processes the roots in order, and returns the final merged-directory state
(also on failure — partially copied files are not rolled back) together with
the result. -/
def resolve_toolboxes (env : List (String × String)) (roots : List ToolboxRoot)
    (keep_artifacts : Bool) : ResolveSt × Except String ResolvedToolbox :=
  if roots.isEmpty then (ResolveSt.empty, .error "no toolbox roots provided")
  else
    let l := limits env
    match process_roots l.1 l.2 0 roots ResolveSt.empty with
    | (st, some e) => (st, .error e)
    | (st, none) =>
      (st, .ok { manifest := { sources := roots.map ToolboxRoot.path
                               files_count := st.files_count
                               bytes_total := st.bytes_total
                               copy_mode := copy_mode_flag
                               bin_entries := st.bin_entries }
                 guard_keep := keep_artifacts })

/-- What one run of `hash_set` (toolbox_resolver.rs lines 65-80) observes of
the filesystem: `canon` is `fs::canonicalize` (`none` on failure), `size_of`
is `metadata(..).len()` (`none` when metadata fails) and `mtime_of` the
modification time in milliseconds since the epoch (`none` when metadata or
`modified()` fails). -/
structure FsView where
  canon : List String → Option (List String)
  size_of : List String → Option Nat
  mtime_of : List String → Option Nat

/-- Little-endian byte rendering of a machine integer of `width` bytes,
as `to_le_bytes` produces. -/
def le_bytes (width n : Nat) : List Nat :=
  (List.range width).map (fun i => n / 256 ^ i % 256)

/-- Bytes of a path display string. -/
def str_bytes (s : String) : List Nat := s.data.map Char.toNat

/-- The bytes `hash_set` feeds to the hasher for one root: the canonical path
string (falling back to the given path if canonicalization fails), then — when
metadata is available — the length as 8 little-endian bytes, then — when the
modification time is available — its milliseconds as 16 little-endian bytes. -/
def hash_root_bytes (v : FsView) (p : List String) : List Nat :=
  let c := (v.canon p).getD p
  str_bytes (pathStr c) ++
    match v.size_of c with
    | none => []
    | some n =>
      le_bytes 8 n ++
        match v.mtime_of c with
        | none => []
        | some m => le_bytes 16 m

/-- The full byte stream `hash_set` feeds to the hasher over all roots. -/
def hash_input (v : FsView) (paths : List (List String)) : List Nat :=
  (paths.map (hash_root_bytes v)).flatten

/-- `hash_set` (toolbox_resolver.rs lines 65-80): the first 16 characters of
the hex digest of the byte stream; the digest function `h` (blake3 hex) is a
parameter of the model. -/
def hash_set (h : List Nat → List Char) (v : FsView) (paths : List (List String)) : String :=
  String.mk ((h (hash_input v paths)).take 16)

/-- The runtime directory named by the digest,
`<base>/runtime_toolboxes/<digest>` (toolbox_resolver.rs line 193). -/
def runtime_dir (base : List String) (digest : String) : List String :=
  base ++ [digest]

/-- From `struct ToolboxProfile` (`toolbox_profiles.rs`), as consumed by the
composer. -/
structure ToolboxProfile where
  name : String
  paths : List String
deriving DecidableEq

/-- `Vec::join` with a separator, as used for `profile.paths.join(":")`. -/
def join_sep (sep : String) : List String → String
  | [] => ""
  | [p] => p
  | p :: q :: rest => p ++ sep ++ join_sep sep (q :: rest)

/-- The POSIX separator predicate of `split_paths` (env_composer.rs line 148). -/
def is_sep (c : Char) : Bool := c = ':' || c = ','

/-- Splitting a character list at separator characters (Rust `str::split`
with a char predicate). -/
def split_chars (p : Char → Bool) : List Char → List Char → List (List Char)
  | [], acc => [acc.reverse]
  | c :: rest, acc =>
    if p c then acc.reverse :: split_chars p rest []
    else split_chars p rest (c :: acc)

/-- Rust `str::trim`: drop whitespace from both ends. -/
def trim_chars (l : List Char) : List Char :=
  ((l.dropWhile Char.isWhitespace).reverse.dropWhile Char.isWhitespace).reverse

/-- `split_paths` (env_composer.rs lines 143-150), POSIX branch: split on `:`
or `,`, trim each piece, and drop empty pieces. -/
def split_paths (s : String) : List String :=
  ((split_chars is_sep s.data []).map (fun cs => String.mk (trim_chars cs))).filter
    (fun p => p != "")

/-- Rust `str::to_lowercase` for the ASCII flag values compared here. -/
def to_lowercase (s : String) : String := String.mk (s.data.map Char.toLower)

/-- The enable check of `compose_runtime_env_internal` (env_composer.rs
lines 89-91): enabled unless `AMP_ENABLE_TOOLBOXES` is `"0"` or
case-insensitively `"false"`; default enabled. -/
def toolboxes_enabled (env : List (String × String)) : Bool :=
  match env.lookup "AMP_ENABLE_TOOLBOXES" with
  | some v => v != "0" && to_lowercase v != "false"
  | none => true

/-- The profile write preceding the enable check (env_composer.rs
lines 82-86): join the profile's paths into `AMP_TOOLBOX_PATHS` and record
the profile name. -/
def apply_profile (env : List (String × String)) :
    Option ToolboxProfile → List (String × String)
  | none => env
  | some p =>
    upsertA (upsertA env "AMP_TOOLBOX_PATHS" (join_sep ":" p.paths))
      "AMP_ACTIVE_TOOLBOX_PROFILE" p.name

/-- `compose_runtime_env_internal` (env_composer.rs lines 70-140). The call
to `resolve_toolboxes(&roots, false)` on the real filesystem is a parameter
`resolver` returning the resolved toolbox's `bin` and `root` display paths on
success; its returned guard is modelled as the resolved root carried in the
result's second component (`none` = no guard returned). The spawn context is
used only for logging and does not influence the result. -/
def compose_runtime_env_internal
    (resolver : List String → Except String (String × String))
    (env : List (String × String)) (profile : Option ToolboxProfile) :
    Except String (List (String × String) × Option String) :=
  let env1 := apply_profile env profile
  if toolboxes_enabled env1 then
    match env1.lookup "AMP_TOOLBOX_PATHS" with
    | some paths_str =>
      let roots := split_paths paths_str
      if roots.isEmpty then .ok (env1, none)
      else
        match resolver roots with
        | .error e => .error e
        | .ok (bin, root) =>
          let prev_path := (env1.lookup "PATH").getD ""
          let new_path := if prev_path = "" then bin else bin ++ (":" ++ prev_path)
          .ok (upsertA (upsertA env1 "PATH" new_path) "AMP_TOOLBOX" root, some root)
    | none => .ok (env1, none)
  else .ok (env1, none)

/-- Concrete fixture: a one-session batch configuration. -/
def c1_config : BatchConfig :=
  ⟨"Cancelled batch", ["p1"], ["/r1"], 1, 300, none, none, none⟩

/-- Concrete fixture: a running batch whose single session completed. -/
def c1_exec : BatchExecution :=
  ⟨"b1", c1_config, BatchStatus.running,
    [("s1", ⟨"s1", SessionStatus.completed, some 0, some 1, none, none⟩)], some 0⟩

/-- The execution after `cancel_batch` has set its status. -/
def c1_cancelled : BatchExecution := { c1_exec with status := BatchStatus.cancelled }

/-- Concrete fixture: a 1 prompt × 1 repository configuration. -/
def c2_config : BatchConfig := ⟨"Fresh batch", ["p1"], ["/r1"], 1, 300, none, none, none⟩

/-- The execution `start_batch` registers for `c2_config`: no sessions yet. -/
def c2_exec : BatchExecution := ⟨"b2", c2_config, BatchStatus.pending, [], none⟩

/-- Concrete fixture: a 2 prompts × 1 repository configuration. -/
def c2w_config : BatchConfig :=
  ⟨"Full batch", ["p1", "p2"], ["/r1"], 1, 300, none, none, none⟩

/-- An execution of `c2w_config` with both sessions recorded. -/
def c2w_exec : BatchExecution :=
  ⟨"w2", c2w_config, BatchStatus.running,
    [("s1", ⟨"s1", SessionStatus.completed, some 0, some 1, none, none⟩),
     ("s2", ⟨"s2", SessionStatus.running, some 0, none, none, none⟩)], some 0⟩

/-- Concrete fixture: a valid configuration with `concurrency = 0`. -/
def c10_config : BatchConfig :=
  ⟨"Zero concurrency", ["p"], ["/r"], 0, 300, none, none, none⟩

/-- Concrete fixture: an environment with toolboxes disabled case-insensitively
but with toolbox paths and a prior PATH present. -/
def c7_env : List (String × String) :=
  [("AMP_ENABLE_TOOLBOXES", "FALSE"), ("AMP_TOOLBOX_PATHS", "/tb"),
   ("PATH", "/usr/bin")]

/-- Concrete fixture: an environment with toolboxes enabled by default and a
single toolbox path configured. -/
def c8_env : List (String × String) :=
  [("PATH", "/usr/bin"), ("AMP_TOOLBOX_PATHS", "/tb")]

/-- Concrete fixture: a resolver oracle that succeeds on the configured root
list with a resolved `bin` and root. -/
def c8_resolver (roots : List String) : Except String (String × String) :=
  if roots = ["/tb"] then .ok ("/rt/bin", "/rt") else .error "unexpected roots"

/-- Concrete fixture: a filesystem view for the digest determinism claim. -/
def c5_view₁ : FsView :=
  ⟨fun _ => some ["opt", "tools"], fun _ => some 3,
    fun q => if q = ["opt", "tools"] then some 7 else some 1⟩

/-- A second filesystem view agreeing with `c5_view₁` on the canonical path,
size and mtime of the hashed roots but differing elsewhere. -/
def c5_view₂ : FsView :=
  ⟨fun _ => some ["opt", "tools"], fun _ => some 3,
    fun q => if q = ["opt", "tools"] then some 7 else some 2⟩

/-- Concrete fixture: a stand-in hex digest function. -/
def c5_hash (input : List Nat) : List Char :=
  List.replicate (16 + input.length % 2) 'a'

theorem lookup_upsertA_self {α β : Type} [BEq α] [LawfulBEq α]
    (m : List (α × β)) (k : α) (v : β) : (upsertA m k v).lookup k = some v := by
  induction m with
  | nil => simp [upsertA, List.lookup]
  | cons kv rest ih =>
    by_cases h : kv.1 = k
    · have hb : (kv.1 != k) = false := by simp [h]
      simpa [upsertA, List.filter_cons, hb] using ih
    · have hb : (kv.1 != k) = true := by simp [h]
      have hk : (k == kv.1) = false := beq_eq_false_iff_ne.mpr (Ne.symm h)
      simpa [upsertA, List.filter_cons, hb, List.lookup, hk] using ih

theorem lookup_upsertA_ne {α β : Type} [BEq α] [LawfulBEq α]
    (m : List (α × β)) (k k' : α) (v : β) (h : k' ≠ k) :
    (upsertA m k v).lookup k' = m.lookup k' := by
  induction m with
  | nil =>
    have hk : (k' == k) = false := beq_eq_false_iff_ne.mpr h
    simp [upsertA, List.lookup, hk]
  | cons kv rest ih =>
    by_cases hkv : kv.1 = k
    · have hb : (kv.1 != k) = false := by simp [hkv]
      have hk' : (k' == kv.1) = false := beq_eq_false_iff_ne.mpr (hkv ▸ h)
      simpa [upsertA, List.filter_cons, hb, List.lookup, hk'] using ih
    · have hb : (kv.1 != k) = true := by simp [hkv]
      by_cases hh : k' = kv.1
      · simp [upsertA, List.filter_cons, hb, List.lookup, hh]
      · have hh' : (k' == kv.1) = false := beq_eq_false_iff_ne.mpr hh
        simpa [upsertA, List.filter_cons, hb, List.lookup, hh'] using ih

theorem isPrefixOf_append_self {α : Type} [BEq α] [LawfulBEq α]
    (a b : List α) : a.isPrefixOf (a ++ b) = true := by
  induction a with
  | nil => simp [List.isPrefixOf]
  | cons x xs ih => simp [List.isPrefixOf, ih]

theorem copy_files_nil (mf mb idx : Nat) (rp : List String) (st : ResolveSt) :
    copy_files mf mb idx rp [] st = (st, none) := rfl

theorem copy_files_cons_symlink (mf mb idx : Nat) (rp rel t : List String)
    (rest : List BinEntry) (st : ResolveSt) :
    copy_files mf mb idx rp (⟨rel, FsNode.symlink t⟩ :: rest) st =
      copy_files mf mb idx rp rest st := rfl

theorem copy_files_cons_dir (mf mb idx : Nat) (rp rel : List String)
    (rest : List BinEntry) (st : ResolveSt) :
    copy_files mf mb idx rp (⟨rel, FsNode.dir⟩ :: rest) st =
      copy_files mf mb idx rp rest st := rfl

theorem copy_files_cons_file (mf mb idx : Nat) (rp rel : List String)
    (content : List Nat) (rest : List BinEntry) (st : ResolveSt)
    (h1 : ¬ mf < st.files_count + 1) (h2 : ¬ mb < st.bytes_total + content.length) :
    copy_files mf mb idx rp (⟨rel, FsNode.file content⟩ :: rest) st =
      copy_files mf mb idx rp rest
        ⟨upsertA st.merged rel content, st.files_count + 1,
          st.bytes_total + content.length, st.bin_entries ++ [(idx, rp, rel)]⟩ := by
  simp [copy_files, h1, h2]

theorem copy_files_cons_file_limit (mf mb idx : Nat) (rp rel : List String)
    (content : List Nat) (rest : List BinEntry) (st : ResolveSt)
    (h1 : mf < st.files_count + 1) :
    copy_files mf mb idx rp (⟨rel, FsNode.file content⟩ :: rest) st =
      (st, some "toolbox file limit exceeded") := by
  simp [copy_files, h1]

theorem copy_files_cons_size_limit (mf mb idx : Nat) (rp rel : List String)
    (content : List Nat) (rest : List BinEntry) (st : ResolveSt)
    (h1 : ¬ mf < st.files_count + 1) (h2 : mb < st.bytes_total + content.length) :
    copy_files mf mb idx rp (⟨rel, FsNode.file content⟩ :: rest) st =
      (st, some "toolbox size limit exceeded") := by
  simp [copy_files, h1, h2]

theorem process_roots_nil (mf mb idx : Nat) (st : ResolveSt) :
    process_roots mf mb idx [] st = (st, none) := rfl

theorem process_roots_cons_valid (mf mb idx : Nat) (r : ToolboxRoot)
    (rest : List ToolboxRoot) (st : ResolveSt)
    (hb : r.hasBin = true) (hv : validate_directory_symlinks r = none) :
    process_roots mf mb idx (r :: rest) st =
      (match copy_files mf mb idx r.path r.entries st with
       | (st', some e) => (st', some e)
       | (st', none) => process_roots mf mb (idx + 1) rest st') := by
  simp [process_roots, hb, hv]

theorem copy_files_entries_sub (mf mb idx : Nat) (rp : List String) :
    ∀ (es : List BinEntry) (st : ResolveSt)
      (x : Nat × List String × List String),
      x ∈ (copy_files mf mb idx rp es st).1.bin_entries →
      x ∈ st.bin_entries ∨ x.2.1 = rp := by
  intro es
  induction es with
  | nil => intro st x hx; exact Or.inl hx
  | cons e rest ih =>
    intro st x hx
    match hn : e.node with
    | FsNode.symlink t =>
      have he : e = ⟨e.rel, FsNode.symlink t⟩ := by cases e; simp_all
      rw [he, copy_files_cons_symlink] at hx
      exact ih st x hx
    | FsNode.dir =>
      have he : e = ⟨e.rel, FsNode.dir⟩ := by cases e; simp_all
      rw [he, copy_files_cons_dir] at hx
      exact ih st x hx
    | FsNode.file content =>
      have he : e = ⟨e.rel, FsNode.file content⟩ := by cases e; simp_all
      by_cases h1 : mf < st.files_count + 1
      · rw [he, copy_files_cons_file_limit mf mb idx rp e.rel content rest st h1] at hx
        exact Or.inl hx
      · by_cases h2 : mb < st.bytes_total + content.length
        · rw [he, copy_files_cons_size_limit mf mb idx rp e.rel content rest st h1 h2] at hx
          exact Or.inl hx
        · rw [he, copy_files_cons_file mf mb idx rp e.rel content rest st h1 h2] at hx
          rcases ih _ x hx with hin | hrp
          · rcases List.mem_append.mp hin with hin' | hin'
            · exact Or.inl hin'
            · right
              have : x = (idx, rp, e.rel) := by simpa using hin'
              rw [this]
          · exact Or.inr hrp

theorem process_roots_entries_sub (mf mb : Nat) :
    ∀ (rs : List ToolboxRoot) (idx : Nat) (st : ResolveSt)
      (x : Nat × List String × List String),
      x ∈ (process_roots mf mb idx rs st).1.bin_entries →
      x ∈ st.bin_entries ∨ x.2.1 ∈ rs.map ToolboxRoot.path := by
  intro rs
  induction rs with
  | nil => intro idx st x hx; exact Or.inl hx
  | cons r rest ih =>
    intro idx st x hx
    by_cases hb : r.hasBin
    · rw [show process_roots mf mb idx (r :: rest) st =
          (if r.hasBin then
            match validate_directory_symlinks r with
            | some e => (st, some e)
            | none =>
              match copy_files mf mb idx r.path r.entries st with
              | (st', some e) => (st', some e)
              | (st', none) => process_roots mf mb (idx + 1) rest st'
           else process_roots mf mb (idx + 1) rest st) from rfl, if_pos hb] at hx
      cases hv : validate_directory_symlinks r with
      | some e => rw [hv] at hx; exact Or.inl hx
      | none =>
        rw [hv] at hx
        cases hc : copy_files mf mb idx r.path r.entries st with
        | mk st' err =>
          rw [hc] at hx
          cases err with
          | some e =>
            rcases copy_files_entries_sub mf mb idx r.path r.entries st x
                (by rw [hc]; exact hx) with hin | hrp
            · exact Or.inl hin
            · exact Or.inr (by simp [hrp])
          | none =>
            rcases ih (idx + 1) st' x hx with hin | hrest
            · rcases copy_files_entries_sub mf mb idx r.path r.entries st x
                  (by rw [hc]; exact hin) with hin' | hrp
              · exact Or.inl hin'
              · exact Or.inr (by simp [hrp])
            · exact Or.inr (by simp [hrest])
    · rw [show process_roots mf mb idx (r :: rest) st =
          (if r.hasBin then
            match validate_directory_symlinks r with
            | some e => (st, some e)
            | none =>
              match copy_files mf mb idx r.path r.entries st with
              | (st', some e) => (st', some e)
              | (st', none) => process_roots mf mb (idx + 1) rest st'
           else process_roots mf mb (idx + 1) rest st) from rfl, if_neg hb] at hx
      rcases ih (idx + 1) st x hx with hin | hrest
      · exact Or.inl hin
      · exact Or.inr (by simp [hrest])

theorem process_roots_error_after (mf mb : Nat) :
    ∀ (pre : List ToolboxRoot) (i : Nat) (st st₀ : ResolveSt)
      (r : ToolboxRoot) (post : List ToolboxRoot) (msg : String),
      process_roots mf mb i pre st = (st₀, none) →
      r.hasBin = true →
      validate_directory_symlinks r = some msg →
      process_roots mf mb i (pre ++ r :: post) st = (st₀, some msg) := by
  intro pre
  induction pre with
  | nil =>
    intro i st st₀ r post msg hpre hb hv
    have hst : st = st₀ := by simpa [process_roots] using hpre
    subst hst
    simp [process_roots, hb, hv]
  | cons q rest ih =>
    intro i st st₀ r post msg hpre hb hv
    by_cases hqb : q.hasBin
    · rw [show process_roots mf mb i (q :: rest) st =
          (if q.hasBin then
            match validate_directory_symlinks q with
            | some e => (st, some e)
            | none =>
              match copy_files mf mb i q.path q.entries st with
              | (st', some e) => (st', some e)
              | (st', none) => process_roots mf mb (i + 1) rest st'
           else process_roots mf mb (i + 1) rest st) from rfl, if_pos hqb] at hpre
      cases hqv : validate_directory_symlinks q with
      | some e => rw [hqv] at hpre; simp at hpre
      | none =>
        rw [hqv] at hpre
        cases hc : copy_files mf mb i q.path q.entries st with
        | mk st' err =>
          rw [hc] at hpre
          cases err with
          | some e => simp at hpre
          | none =>
            have goal := ih (i + 1) st' st₀ r post msg hpre hb hv
            rw [show process_roots mf mb i ((q :: rest) ++ r :: post) st =
                (if q.hasBin then
                  match validate_directory_symlinks q with
                  | some e => (st, some e)
                  | none =>
                    match copy_files mf mb i q.path q.entries st with
                    | (st', some e) => (st', some e)
                    | (st', none) => process_roots mf mb (i + 1) (rest ++ r :: post) st'
                 else process_roots mf mb (i + 1) (rest ++ r :: post) st) from rfl,
              if_pos hqb, hqv, hc]
            exact goal
    · rw [show process_roots mf mb i (q :: rest) st =
          (if q.hasBin then
            match validate_directory_symlinks q with
            | some e => (st, some e)
            | none =>
              match copy_files mf mb i q.path q.entries st with
              | (st', some e) => (st', some e)
              | (st', none) => process_roots mf mb (i + 1) rest st'
           else process_roots mf mb (i + 1) rest st) from rfl, if_neg hqb] at hpre
      have goal := ih (i + 1) st st₀ r post msg hpre hb hv
      rw [show process_roots mf mb i ((q :: rest) ++ r :: post) st =
          (if q.hasBin then
            match validate_directory_symlinks q with
            | some e => (st, some e)
            | none =>
              match copy_files mf mb i q.path q.entries st with
              | (st', some e) => (st', some e)
              | (st', none) => process_roots mf mb (i + 1) (rest ++ r :: post) st'
           else process_roots mf mb (i + 1) (rest ++ r :: post) st) from rfl, if_neg hqb]
      exact goal

theorem validate_entries_escape (root_path : List String) :
    ∀ (es : List BinEntry),
      (∃ e ∈ es, ∃ t, e.node = FsNode.symlink t ∧ root_path.isPrefixOf t = false) →
      ∃ rel t, root_path.isPrefixOf t = false ∧
        validate_entries root_path es =
          some (escape_message (pathStr (root_path ++ ["bin"] ++ rel)) (pathStr t)
            (pathStr root_path)) := by
  intro es
  induction es with
  | nil => rintro ⟨e, he, -⟩; exact absurd he (List.not_mem_nil e)
  | cons e rest ih =>
    rintro ⟨w, hw, t, hnode, hesc⟩
    match hn : e.node with
    | FsNode.symlink t' =>
      by_cases hp : root_path.isPrefixOf t' = true
      · have hwrest : w ∈ rest := by
          rcases List.mem_cons.mp hw with hwe | hwr
          · exfalso
            rw [hwe, hn] at hnode
            have : t' = t := by injection hnode
            rw [this] at hp
            rw [hp] at hesc
            exact Bool.noConfusion hesc
          · exact hwr
        obtain ⟨rel, t'', hesc'', hval⟩ := ih ⟨w, hwrest, t, hnode, hesc⟩
        refine ⟨rel, t'', hesc'', ?_⟩
        simpa [validate_entries, hn, validate_symlink_security, hp] using hval
      · have hp' : root_path.isPrefixOf t' = false := Bool.of_not_eq_true hp
        exact ⟨e.rel, t', hp', by
          simp [validate_entries, hn, validate_symlink_security, hp']⟩
    | FsNode.file c =>
      have hwrest : w ∈ rest := by
        rcases List.mem_cons.mp hw with hwe | hwr
        · exfalso; rw [hwe, hn] at hnode; exact FsNode.noConfusion hnode
        · exact hwr
      obtain ⟨rel, t'', hesc'', hval⟩ := ih ⟨w, hwrest, t, hnode, hesc⟩
      exact ⟨rel, t'', hesc'', by simpa [validate_entries, hn] using hval⟩
    | FsNode.dir =>
      have hwrest : w ∈ rest := by
        rcases List.mem_cons.mp hw with hwe | hwr
        · exfalso; rw [hwe, hn] at hnode; exact FsNode.noConfusion hnode
        · exact hwr
      obtain ⟨rel, t'', hesc'', hval⟩ := ih ⟨w, hwrest, t, hnode, hesc⟩
      exact ⟨rel, t'', hesc'', by simpa [validate_entries, hn] using hval⟩

theorem escape_message_mentions_phrase (s t r : String) :
    mentions (escape_message s t r) "escapes toolbox root" := by
  refine ⟨"symlink target ",
    ": " ++ (s ++ (" -> " ++ (t ++ (" (root: " ++ (r ++ ")"))))), ?_⟩
  have hlit : ("symlink target escapes toolbox root: " : String) =
      "symlink target " ++ ("escapes toolbox root" ++ ": ") := by decide
  rw [escape_message, hlit, String.append_assoc, String.append_assoc]

theorem escape_message_mentions_symlink (s t r : String) :
    mentions (escape_message s t r) s :=
  ⟨"symlink target escapes toolbox root: ",
    " -> " ++ (t ++ (" (root: " ++ (r ++ ")"))), rfl⟩

theorem escape_message_mentions_target (s t r : String) :
    mentions (escape_message s t r) t := by
  refine ⟨("symlink target escapes toolbox root: " ++ s) ++ " -> ",
    " (root: " ++ (r ++ ")"), ?_⟩
  rw [escape_message, String.append_assoc, String.append_assoc]

theorem driver_stuck (outs : List Bool) (s : DriverState)
    (h : Relation.ReflTransGen DriverStep ⟨outs, 0, 0, BatchStatus.running⟩ s)
    (ho : true ∈ outs) :
    s.available = 0 ∧ s.tasks = 0 ∧ s.status = BatchStatus.running ∧
      true ∈ s.remaining := by
  induction h with
  | refl => exact ⟨rfl, rfl, rfl, ho⟩
  | tail hsteps hstep ih =>
    obtain ⟨ha, ht, hst, hmem⟩ := ih
    cases hstep with
    | createFail rest a t st =>
      simp only at ha ht hst hmem ⊢
      refine ⟨ha, ht, hst, ?_⟩
      rcases List.mem_cons.mp hmem with hh | hh
      · exact absurd hh.symm Bool.false_ne_true
      · exact hh
    | createOk rest a t st => exact absurd ha (Nat.succ_ne_zero a)
    | taskDone rem a t st => exact absurd ht (Nat.succ_ne_zero t)
    | finalize a st st' hfin => exact absurd hmem (List.not_mem_nil true)

/-- Claim C1, counterexample: a batch whose status was set to `Cancelled` by
`cancel_batch` does not keep that status — when the driver's final-status
block runs with zero failed sessions, the status is overwritten to
`Completed`, contradicting the claimed Cancelled exception. -/
theorem c1_counterexample :
    ∃ (reg' : List (String × BatchExecution)) (ps : List BatchProgress)
      (ex' : BatchExecution),
      cancel_batch [("b1", c1_exec)] "b1" = .ok (reg', ps) ∧
      reg'.lookup "b1" = some ex' ∧
      ex'.status = BatchStatus.cancelled ∧
      count_failed ex'.sessions = 0 ∧
      (finalize_batch "b1" ex').1.status = BatchStatus.completed ∧
      BatchStatus.completed ≠ BatchStatus.cancelled :=
  ⟨[("b1", c1_cancelled)], [calculate_progress "b1" c1_cancelled], c1_cancelled,
    rfl, rfl, rfl, rfl, rfl, by decide⟩

/-- Claim C1 (amended): after the driver task joins all per-session tasks,
the final batch status is `Completed` when zero sessions are `Failed` and
`Failed` otherwise, regardless of any previously set status (in particular a
`Cancelled` status set by `cancel_batch` is overwritten); exactly one final
progress snapshot is pushed, computed after the final status is set and
carrying that status. -/
theorem c1_final_status_amended (batch_id : String) (b : BatchExecution) :
    (finalize_batch batch_id b).1.status =
      (if count_failed b.sessions = 0 then BatchStatus.completed
       else BatchStatus.failed) ∧
    (finalize_batch batch_id b).2 =
      [calculate_progress batch_id (finalize_batch batch_id b).1] ∧
    (calculate_progress batch_id (finalize_batch batch_id b).1).status =
      (if count_failed b.sessions = 0 then BatchStatus.completed
       else BatchStatus.failed) := by
  unfold finalize_batch
  by_cases h : count_failed b.sessions = 0 <;> simp [h, calculate_progress]

/-- Claim C2, counterexample: the snapshot `get_batch_status` produces for a
freshly started 1×1 batch has `total_sessions = 0` (the sessions map is still
empty), not `|prompts| × |repositories| = 1`. -/
theorem c2_counterexample :
    start_batch "b2" c2_config = .ok (c2_exec, 1) ∧
    get_batch_status [("b2", c2_exec)] "b2" =
      .ok (calculate_progress "b2" c2_exec) ∧
    (calculate_progress "b2" c2_exec).total_sessions = 0 ∧
    c2_config.prompts.length * c2_config.repositories.length = 1 ∧
    (calculate_progress "b2" c2_exec).total_sessions ≠
      c2_config.prompts.length * c2_config.repositories.length :=
  ⟨rfl, rfl, rfl, rfl, by decide⟩

/-- Claim C2 (amended): in every `BatchProgress` snapshot, `total_sessions`
equals the number of sessions currently recorded in the batch's sessions map
(which equals `|prompts| × |repositories|` only once all sessions have been
recorded), the three counters count sessions by status, and
`progress_percent` is `(completed + failed) / total × 100` when the recorded
total is positive and `0` otherwise. -/
theorem c2_progress_amended (batch_id : String) (b : BatchExecution) :
    (calculate_progress batch_id b).total_sessions = b.sessions.length ∧
    (calculate_progress batch_id b).completed_sessions =
      (b.sessions.filter (fun s => s.2.status == SessionStatus.completed)).length ∧
    (calculate_progress batch_id b).failed_sessions =
      (b.sessions.filter (fun s => s.2.status == SessionStatus.failed)).length ∧
    (calculate_progress batch_id b).running_sessions =
      (b.sessions.filter (fun s => s.2.status == SessionStatus.running)).length ∧
    (calculate_progress batch_id b).progress_percent =
      (if 0 < b.sessions.length then
        (((calculate_progress batch_id b).completed_sessions : ℚ) +
            ((calculate_progress batch_id b).failed_sessions : ℚ)) /
          ((b.sessions.length : ℚ)) * 100
       else 0) ∧
    (b.sessions.length = b.config.prompts.length * b.config.repositories.length →
      (calculate_progress batch_id b).total_sessions =
        b.config.prompts.length * b.config.repositories.length) :=
  ⟨rfl, rfl, rfl, rfl, rfl, fun h => h⟩

/-- Witness for C2 (amended) at a concrete execution with both of its 2×1
sessions recorded. -/
theorem c2_progress_amended_witness :
    c2w_exec.sessions.length =
      c2w_exec.config.prompts.length * c2w_exec.config.repositories.length ∧
    (calculate_progress "w2" c2w_exec).total_sessions =
      c2w_exec.config.prompts.length * c2w_exec.config.repositories.length :=
  ⟨by decide, (c2_progress_amended "w2" c2w_exec).2.2.2.2.2 (by decide)⟩

/-- Claim C10: `start_batch` accepts a config with non-empty prompts and
repositories and `concurrency = 0` (no validation of the concurrency field);
the driver's session semaphore then has `min(0, engine ceiling) = 0` permits,
so in every driver state reachable while some pair's session creation would
succeed, that pair is still unprocessed, no permit is available, no session
task has been spawned, and the batch status remains `Running`. -/
theorem c10_zero_concurrency (batch_id : String) (config : BatchConfig)
    (outcomes : List Bool) (s : DriverState)
    (hp : config.prompts ≠ []) (hr : config.repositories ≠ [])
    (hc : config.concurrency = 0)
    (ho : true ∈ outcomes)
    (hreach : driver_reachable config outcomes s) :
    (∃ ex n, start_batch batch_id config = .ok (ex, n)) ∧
    session_permits config = 0 ∧
    s.status = BatchStatus.running ∧
    s.available = 0 ∧ s.tasks = 0 ∧ true ∈ s.remaining := by
  have hperm : session_permits config = 0 := by
    simp [session_permits, hc]
  have hinit : driver_init config outcomes = ⟨outcomes, 0, 0, BatchStatus.running⟩ := by
    simp [driver_init, hperm]
  rw [driver_reachable, hinit] at hreach
  obtain ⟨ha, ht, hst, hmem⟩ := driver_stuck outcomes s hreach ho
  have hp' : config.prompts.isEmpty = false := by
    cases hcp : config.prompts with
    | nil => exact absurd hcp hp
    | cons a l => rfl
  have hr' : config.repositories.isEmpty = false := by
    cases hcr : config.repositories with
    | nil => exact absurd hcr hr
    | cons a l => rfl
  refine ⟨⟨{ id := batch_id, config := config, status := BatchStatus.pending,
             sessions := [], start_time := none },
           config.prompts.length * config.repositories.length, ?_⟩,
          hperm, hst, ha, ht, hmem⟩
  simp [start_batch, hp', hr']

/-- Witness for C10 at a concrete zero-concurrency configuration, evaluated
at the initial driver state. -/
theorem c10_zero_concurrency_witness :
    c10_config.prompts ≠ [] ∧ c10_config.repositories ≠ [] ∧
    c10_config.concurrency = 0 ∧ true ∈ [true] ∧
    driver_reachable c10_config [true] (driver_init c10_config [true]) ∧
    ((∃ ex n, start_batch "B10" c10_config = .ok (ex, n)) ∧
      session_permits c10_config = 0 ∧
      (driver_init c10_config [true]).status = BatchStatus.running ∧
      (driver_init c10_config [true]).available = 0 ∧
      (driver_init c10_config [true]).tasks = 0 ∧
      true ∈ (driver_init c10_config [true]).remaining) :=
  ⟨by decide, by decide, rfl, by decide, Relation.ReflTransGen.refl,
    c10_zero_concurrency "B10" c10_config [true] (driver_init c10_config [true])
      (by decide) (by decide) rfl (by decide) Relation.ReflTransGen.refl⟩

/-- Claim C7: when `AMP_ENABLE_TOOLBOXES` is `"0"` or case-insensitively
`"false"`, `compose_env` returns no guard and performs no mutation beyond the
optional profile-variable writes that precede the enable check — regardless
of any `AMP_TOOLBOX_PATHS` value, the PATH entry is unchanged and no
`AMP_TOOLBOX` key is added. -/
theorem c7_compose_env_disabled
    (resolver : List String → Except String (String × String))
    (env : List (String × String)) (profile : Option ToolboxProfile) (v : String)
    (hv : env.lookup "AMP_ENABLE_TOOLBOXES" = some v)
    (hdis : v = "0" ∨ to_lowercase v = "false") :
    compose_runtime_env_internal resolver env profile =
      .ok (apply_profile env profile, none) ∧
    (apply_profile env profile).lookup "PATH" = env.lookup "PATH" ∧
    (apply_profile env profile).lookup "AMP_TOOLBOX" = env.lookup "AMP_TOOLBOX" := by
  have hkey : (apply_profile env profile).lookup "AMP_ENABLE_TOOLBOXES" = some v := by
    cases profile with
    | none => exact hv
    | some p =>
      rw [apply_profile,
        lookup_upsertA_ne _ _ _ _
          (by decide : ("AMP_ENABLE_TOOLBOXES" : String) ≠ "AMP_ACTIVE_TOOLBOX_PROFILE"),
        lookup_upsertA_ne _ _ _ _
          (by decide : ("AMP_ENABLE_TOOLBOXES" : String) ≠ "AMP_TOOLBOX_PATHS")]
      exact hv
  have hdisb : toolboxes_enabled (apply_profile env profile) = false := by
    rw [toolboxes_enabled, hkey]
    rcases hdis with h0 | hf
    · simp [h0]
    · simp [hf]
  refine ⟨?_, ?_, ?_⟩
  · unfold compose_runtime_env_internal
    simp [hdisb]
  · cases profile with
    | none => rfl
    | some p =>
      rw [apply_profile,
        lookup_upsertA_ne _ _ _ _
          (by decide : ("PATH" : String) ≠ "AMP_ACTIVE_TOOLBOX_PROFILE"),
        lookup_upsertA_ne _ _ _ _
          (by decide : ("PATH" : String) ≠ "AMP_TOOLBOX_PATHS")]
  · cases profile with
    | none => rfl
    | some p =>
      rw [apply_profile,
        lookup_upsertA_ne _ _ _ _
          (by decide : ("AMP_TOOLBOX" : String) ≠ "AMP_ACTIVE_TOOLBOX_PROFILE"),
        lookup_upsertA_ne _ _ _ _
          (by decide : ("AMP_TOOLBOX" : String) ≠ "AMP_TOOLBOX_PATHS")]

/-- Witness for C7 at a concrete environment with `AMP_ENABLE_TOOLBOXES=FALSE`,
valid toolbox paths and a prior PATH. -/
theorem c7_compose_env_disabled_witness :
    c7_env.lookup "AMP_ENABLE_TOOLBOXES" = some "FALSE" ∧
    ("FALSE" = "0" ∨ to_lowercase "FALSE" = "false") ∧
    (compose_runtime_env_internal (fun _ => .error "unused") c7_env none =
        .ok (apply_profile c7_env none, none) ∧
      (apply_profile c7_env none).lookup "PATH" = c7_env.lookup "PATH" ∧
      (apply_profile c7_env none).lookup "AMP_TOOLBOX" =
        c7_env.lookup "AMP_TOOLBOX") :=
  ⟨by decide, Or.inr (by decide),
    c7_compose_env_disabled (fun _ => .error "unused") c7_env none "FALSE"
      (by decide) (Or.inr (by decide))⟩

/-- Claim C8: with toolboxes enabled, a non-empty `AMP_TOOLBOX_PATHS` value
yielding at least one root, and a successful resolution, `compose_env` sets
PATH to the resolved `bin` directory followed by the separator and the prior
PATH (or exactly the `bin` directory when the prior PATH was empty), sets
`AMP_TOOLBOX` to the resolved root, and returns the toolbox's guard. -/
theorem c8_compose_env_enabled
    (resolver : List String → Except String (String × String))
    (env : List (String × String)) (s bin root : String)
    (hen : toolboxes_enabled env = true)
    (hp : env.lookup "AMP_TOOLBOX_PATHS" = some s)
    (hne : split_paths s ≠ [])
    (hres : resolver (split_paths s) = .ok (bin, root)) :
    ∃ env',
      compose_runtime_env_internal resolver env none = .ok (env', some root) ∧
      env'.lookup "AMP_TOOLBOX" = some root ∧
      env'.lookup "PATH" =
        some (if (env.lookup "PATH").getD "" = "" then bin
              else bin ++ (":" ++ (env.lookup "PATH").getD "")) := by
  have hnb : (split_paths s).isEmpty = false := by
    cases hsp : split_paths s with
    | nil => exact absurd hsp hne
    | cons a l => rfl
  refine ⟨upsertA (upsertA env "PATH"
      (if (env.lookup "PATH").getD "" = "" then bin
       else bin ++ (":" ++ (env.lookup "PATH").getD ""))) "AMP_TOOLBOX" root,
    ?_, ?_, ?_⟩
  · unfold compose_runtime_env_internal
    simp only [apply_profile, hen, if_true, hp, hnb, hres]
    simp
  · exact lookup_upsertA_self _ _ _
  · rw [lookup_upsertA_ne _ _ _ _ (by decide : ("PATH" : String) ≠ "AMP_TOOLBOX"),
      lookup_upsertA_self]

/-- Witness for C8 at a concrete enabled environment with one toolbox root
and a prior PATH. -/
theorem c8_compose_env_enabled_witness :
    toolboxes_enabled c8_env = true ∧
    c8_env.lookup "AMP_TOOLBOX_PATHS" = some "/tb" ∧
    split_paths "/tb" ≠ [] ∧
    c8_resolver (split_paths "/tb") = .ok ("/rt/bin", "/rt") ∧
    (∃ env',
      compose_runtime_env_internal c8_resolver c8_env none = .ok (env', some "/rt") ∧
      env'.lookup "AMP_TOOLBOX" = some "/rt" ∧
      env'.lookup "PATH" =
        some (if (c8_env.lookup "PATH").getD "" = "" then "/rt/bin"
              else "/rt/bin" ++ (":" ++ (c8_env.lookup "PATH").getD ""))) :=
  ⟨by decide, by decide, by decide, rfl,
    c8_compose_env_enabled c8_resolver c8_env "/tb" "/rt/bin" "/rt"
      (by decide) (by decide) (by decide) rfl⟩

/-- Claim C5: the 16-character digest (and hence the runtime directory name)
is a deterministic function of the canonical path strings plus each path's
size and modification time — two runs whose filesystem views agree on those
observations for the given roots produce the same digest and directory,
whatever else differs between the runs. -/
theorem c5_digest_determinism
    (h : List Nat → List Char) (v₁ v₂ : FsView)
    (paths : List (List String)) (base : List String)
    (hcanon : ∀ p ∈ paths, v₁.canon p = v₂.canon p)
    (hsize : ∀ p ∈ paths,
      v₁.size_of ((v₁.canon p).getD p) = v₂.size_of ((v₂.canon p).getD p))
    (hmtime : ∀ p ∈ paths,
      v₁.mtime_of ((v₁.canon p).getD p) = v₂.mtime_of ((v₂.canon p).getD p)) :
    hash_set h v₁ paths = hash_set h v₂ paths ∧
    runtime_dir base (hash_set h v₁ paths) =
      runtime_dir base (hash_set h v₂ paths) := by
  have hin : hash_input v₁ paths = hash_input v₂ paths := by
    unfold hash_input
    congr 1
    apply List.map_congr_left
    intro p hp
    simp only [hash_root_bytes]
    rw [hsize p hp, hmtime p hp, hcanon p hp]
  constructor
  · unfold hash_set
    rw [hin]
  · unfold runtime_dir hash_set
    rw [hin]

/-- Witness for C5: two concrete views agreeing on the hashed root's
observations (but differing on other paths) give the same digest. -/
theorem c5_digest_determinism_witness :
    (∀ p ∈ [["ta"]], c5_view₁.canon p = c5_view₂.canon p) ∧
    (∀ p ∈ [["ta"]],
      c5_view₁.size_of ((c5_view₁.canon p).getD p) =
        c5_view₂.size_of ((c5_view₂.canon p).getD p)) ∧
    (∀ p ∈ [["ta"]],
      c5_view₁.mtime_of ((c5_view₁.canon p).getD p) =
        c5_view₂.mtime_of ((c5_view₂.canon p).getD p)) ∧
    (hash_set c5_hash c5_view₁ [["ta"]] = hash_set c5_hash c5_view₂ [["ta"]] ∧
      runtime_dir ["base"] (hash_set c5_hash c5_view₁ [["ta"]]) =
        runtime_dir ["base"] (hash_set c5_hash c5_view₂ [["ta"]])) :=
  ⟨fun _ _ => rfl, fun _ _ => rfl, fun _ _ => rfl,
    c5_digest_determinism c5_hash c5_view₁ c5_view₂ [["ta"]] ["base"]
      (fun _ _ => rfl) (fun _ _ => rfl) (fun _ _ => rfl)⟩

/-- Claim C4: roots are processed in caller-supplied order and on a name
collision the entry from the later root replaces the earlier one — resolving
`[A, B]` where both provide the same `bin/` relative path with different
contents yields B's content at that path, and resolving `[B, A]` yields
A's. -/
theorem c4_last_write_wins (pa pb p : List String) (ca cb : List Nat)
    (_hne : ca ≠ cb)
    (hsz : ca.length + cb.length ≤ 262144000) :
    ∃ stAB stBA mAB mBA,
      resolve_toolboxes []
        [⟨pa, true, [⟨p, FsNode.file ca⟩]⟩, ⟨pb, true, [⟨p, FsNode.file cb⟩]⟩]
        false = (stAB, .ok mAB) ∧
      stAB.merged.lookup p = some cb ∧
      resolve_toolboxes []
        [⟨pb, true, [⟨p, FsNode.file cb⟩]⟩, ⟨pa, true, [⟨p, FsNode.file ca⟩]⟩]
        false = (stBA, .ok mBA) ∧
      stBA.merged.lookup p = some ca := by
  have h2a : ¬ (262144000 < ca.length) := by omega
  have h2b : ¬ (262144000 < cb.length) := by omega
  have h3a : ¬ (262144000 < ca.length + cb.length) := by omega
  have h3b : ¬ (262144000 < cb.length + ca.length) := by omega
  refine ⟨⟨[(p, cb)], 2, ca.length + cb.length, [(0, pa, p), (1, pb, p)]⟩,
    ⟨[(p, ca)], 2, cb.length + ca.length, [(0, pb, p), (1, pa, p)]⟩,
    ⟨⟨[pa, pb], 2, ca.length + cb.length, false, [(0, pa, p), (1, pb, p)]⟩, false⟩,
    ⟨⟨[pb, pa], 2, cb.length + ca.length, false, [(0, pb, p), (1, pa, p)]⟩, false⟩,
    ?_, by simp [List.lookup], ?_, by simp [List.lookup]⟩
  · norm_num [resolve_toolboxes, limits, List.lookup, process_roots,
      validate_directory_symlinks, validate_entries, copy_files, ResolveSt.empty,
      upsertA, copy_mode_flag, h2a, h3a]
  · norm_num [resolve_toolboxes, limits, List.lookup, process_roots,
      validate_directory_symlinks, validate_entries, copy_files, ResolveSt.empty,
      upsertA, copy_mode_flag, h2b, h3b]

/-- Witness for C4 with two concrete single-file roots colliding on
`bin/tool`. -/
theorem c4_last_write_wins_witness :
    ([1] : List Nat) ≠ [2] ∧
    ([1] : List Nat).length + ([2] : List Nat).length ≤ 262144000 ∧
    (∃ stAB stBA mAB mBA,
      resolve_toolboxes []
        [⟨["A"], true, [⟨["tool"], FsNode.file [1]⟩]⟩,
         ⟨["B"], true, [⟨["tool"], FsNode.file [2]⟩]⟩] false = (stAB, .ok mAB) ∧
      stAB.merged.lookup ["tool"] = some [2] ∧
      resolve_toolboxes []
        [⟨["B"], true, [⟨["tool"], FsNode.file [2]⟩]⟩,
         ⟨["A"], true, [⟨["tool"], FsNode.file [1]⟩]⟩] false = (stBA, .ok mBA) ∧
      stBA.merged.lookup ["tool"] = some [1]) :=
  ⟨by decide, by decide,
    c4_last_write_wins ["A"] ["B"] ["tool"] [1] [2] (by decide) (by decide)⟩

/-- Claim C9: a symlink under `bin/` whose resolved target stays within its
toolbox root does not make the resolve fail, is itself never materialized in
the merged `bin/` (symlinks are skipped in the copy pass), and the regular
file alongside it under `bin/` is still copied. -/
theorem c9_internal_symlink (rp pf ps t : List String) (c : List Nat)
    (hin : rp.isPrefixOf t = true)
    (hps : ps ≠ pf)
    (hsz : c.length ≤ 262144000) :
    ∃ st m,
      resolve_toolboxes []
        [⟨rp, true, [⟨pf, FsNode.file c⟩, ⟨ps, FsNode.symlink t⟩]⟩] false =
        (st, .ok m) ∧
      st.merged.lookup pf = some c ∧
      st.merged.lookup ps = none ∧
      st.bin_entries = [(0, rp, pf)] := by
  have h2 : ¬ (262144000 < c.length) := by omega
  have hpsb : (ps == pf) = false := beq_eq_false_iff_ne.mpr hps
  refine ⟨⟨[(pf, c)], 1, c.length, [(0, rp, pf)]⟩,
    ⟨⟨[rp], 1, c.length, false, [(0, rp, pf)]⟩, false⟩,
    ?_, by simp [List.lookup], by simp [List.lookup, hpsb], rfl⟩
  norm_num [resolve_toolboxes, limits, List.lookup, process_roots,
    validate_directory_symlinks, validate_entries, validate_symlink_security,
    copy_files, ResolveSt.empty, upsertA, copy_mode_flag, h2, hin]

/-- Witness for C9 with a concrete root holding one file and one safe
internal symlink pointing at it. -/
theorem c9_internal_symlink_witness :
    (["R"] : List String).isPrefixOf ["R", "bin", "tool"] = true ∧
    (["link"] : List String) ≠ ["tool"] ∧
    ([7] : List Nat).length ≤ 262144000 ∧
    (∃ st m,
      resolve_toolboxes []
        [⟨["R"], true, [⟨["tool"], FsNode.file [7]⟩,
          ⟨["link"], FsNode.symlink ["R", "bin", "tool"]⟩]⟩] false = (st, .ok m) ∧
      st.merged.lookup ["tool"] = some [7] ∧
      st.merged.lookup ["link"] = none ∧
      st.bin_entries = [(0, ["R"], ["tool"])]) :=
  ⟨by decide, by decide, by decide,
    c9_internal_symlink ["R"] ["tool"] ["link"] ["R", "bin", "tool"] [7]
      (by decide) (by decide) (by decide)⟩

/-- Claim C6: with `max_files = 2` (via `AMP_TOOLBOX_MAX_FILES`), resolving a
root containing 3 regular files fails with an error containing "file limit
exceeded", after copying exactly the first two files and not the third; with
a byte limit smaller than one file's size, resolving a root containing that
file fails with an error containing "size limit exceeded" before copying it;
in neither case are previously copied files rolled back. -/
theorem c6_resource_limits
    (envF : List (String × String)) (mbF : Nat) (rp p1 p2 p3 : List String)
    (c1 c2 c3 : List Nat)
    (hlimF : limits envF = (2, mbF))
    (hp12 : p1 ≠ p2) (hp13 : p1 ≠ p3) (hp23 : p2 ≠ p3)
    (hszF : c1.length + c2.length ≤ mbF)
    (envB : List (String × String)) (mfB mbB : Nat) (rq q : List String)
    (d : List Nat)
    (hlimB : limits envB = (mfB, mbB)) (hmfB : 1 ≤ mfB) (hdb : mbB < d.length) :
    (∃ st,
      resolve_toolboxes envF
        [⟨rp, true, [⟨p1, FsNode.file c1⟩, ⟨p2, FsNode.file c2⟩,
          ⟨p3, FsNode.file c3⟩]⟩] false =
        (st, .error "toolbox file limit exceeded") ∧
      mentions "toolbox file limit exceeded" "file limit exceeded" ∧
      st.merged.lookup p1 = some c1 ∧
      st.merged.lookup p2 = some c2 ∧
      st.merged.lookup p3 = none ∧
      st.files_count = 2) ∧
    (resolve_toolboxes envB [⟨rq, true, [⟨q, FsNode.file d⟩]⟩] false =
        (ResolveSt.empty, .error "toolbox size limit exceeded") ∧
      mentions "toolbox size limit exceeded" "size limit exceeded") := by
  have h2a : ¬ (mbF < c1.length) := by omega
  have h2b : ¬ (mbF < c1.length + c2.length) := by omega
  have hb12 : (p1 == p2) = false := beq_eq_false_iff_ne.mpr hp12
  have hb21 : (p2 == p1) = false := beq_eq_false_iff_ne.mpr (Ne.symm hp12)
  have hb31 : (p3 == p1) = false := beq_eq_false_iff_ne.mpr (Ne.symm hp13)
  have hb32 : (p3 == p2) = false := beq_eq_false_iff_ne.mpr (Ne.symm hp23)
  have hmfB' : ¬ (mfB < 0 + 1) := by omega
  have hdb' : mbB < 0 + d.length := by omega
  constructor
  · refine ⟨⟨[(p1, c1), (p2, c2)], 2, c1.length + c2.length,
      [(0, rp, p1), (0, rp, p2)]⟩, ?_,
      ⟨"toolbox ", "", by decide⟩,
      by simp [List.lookup],
      by simp [List.lookup, hb21],
      by simp [List.lookup, hb31, hb32],
      rfl⟩
    norm_num [resolve_toolboxes, hlimF, process_roots,
      validate_directory_symlinks, validate_entries, copy_files, ResolveSt.empty,
      upsertA, List.filter_cons, bne, hb12, h2a, h2b]
  · refine ⟨?_, ⟨"toolbox ", "", by decide⟩⟩
    norm_num [resolve_toolboxes, hlimB, process_roots,
      validate_directory_symlinks, validate_entries, copy_files, ResolveSt.empty,
      hmfB', hdb, hdb']

/-- Witness for C6 with `AMP_TOOLBOX_MAX_FILES=2` over three one-byte files,
and `AMP_TOOLBOX_MAX_BYTES=4` over one five-byte file. -/
theorem c6_resource_limits_witness :
    limits [("AMP_TOOLBOX_MAX_FILES", "2")] = (2, 262144000) ∧
    (["f1"] : List String) ≠ ["f2"] ∧ (["f1"] : List String) ≠ ["f3"] ∧
    (["f2"] : List String) ≠ ["f3"] ∧
    ([1] : List Nat).length + ([2] : List Nat).length ≤ 262144000 ∧
    limits [("AMP_TOOLBOX_MAX_BYTES", "4")] = (5000, 4) ∧
    1 ≤ 5000 ∧ 4 < ([9, 9, 9, 9, 9] : List Nat).length ∧
    ((∃ st,
      resolve_toolboxes [("AMP_TOOLBOX_MAX_FILES", "2")]
        [⟨["R"], true, [⟨["f1"], FsNode.file [1]⟩, ⟨["f2"], FsNode.file [2]⟩,
          ⟨["f3"], FsNode.file [3]⟩]⟩] false =
        (st, .error "toolbox file limit exceeded") ∧
      mentions "toolbox file limit exceeded" "file limit exceeded" ∧
      st.merged.lookup ["f1"] = some [1] ∧
      st.merged.lookup ["f2"] = some [2] ∧
      st.merged.lookup ["f3"] = none ∧
      st.files_count = 2) ∧
    (resolve_toolboxes [("AMP_TOOLBOX_MAX_BYTES", "4")]
        [⟨["Q"], true, [⟨["big"], FsNode.file [9, 9, 9, 9, 9]⟩]⟩] false =
        (ResolveSt.empty, .error "toolbox size limit exceeded") ∧
      mentions "toolbox size limit exceeded" "size limit exceeded")) :=
  ⟨by decide, by decide, by decide, by decide, by decide, by decide,
    by decide, by decide,
    c6_resource_limits [("AMP_TOOLBOX_MAX_FILES", "2")] 262144000 ["R"]
      ["f1"] ["f2"] ["f3"] [1] [2] [3] (by decide) (by decide) (by decide)
      (by decide) (by decide) [("AMP_TOOLBOX_MAX_BYTES", "4")] 5000 4 ["Q"]
      ["big"] [9, 9, 9, 9, 9] (by decide) (by decide) (by decide)⟩

/-- Claim C3: when some root's `bin/` subtree contains a symlink whose
resolved, canonicalized target lies outside that root, `resolve_toolboxes`
fails with an error mentioning "escapes toolbox root" that names the
offending symlink and its target; the per-root symlink validation runs before
any file of that root is copied (the merged state is exactly the state left
by the earlier roots), and — provided the escaping target does not lie under
any root's `bin/` — the target file is never copied into the merged `bin/`. -/
theorem c3_symlink_escape_rejected
    (env : List (String × String)) (keep : Bool)
    (pre : List ToolboxRoot) (r : ToolboxRoot) (post : List ToolboxRoot)
    (st₀ : ResolveSt)
    (hpre : process_roots (limits env).1 (limits env).2 0 pre ResolveSt.empty =
      (st₀, none))
    (hbin : r.hasBin = true)
    (hesc : ∃ e ∈ r.entries, ∃ t, e.node = FsNode.symlink t ∧
      r.path.isPrefixOf t = false)
    (htgt : ∀ t : List String, r.path.isPrefixOf t = false →
      ∀ q ∈ pre, (q.path ++ ["bin"]).isPrefixOf t = false) :
    ∃ rel t,
      r.path.isPrefixOf t = false ∧
      resolve_toolboxes env (pre ++ r :: post) keep =
        (st₀, .error (escape_message (pathStr (r.path ++ ["bin"] ++ rel))
          (pathStr t) (pathStr r.path))) ∧
      mentions (escape_message (pathStr (r.path ++ ["bin"] ++ rel)) (pathStr t)
        (pathStr r.path)) "escapes toolbox root" ∧
      mentions (escape_message (pathStr (r.path ++ ["bin"] ++ rel)) (pathStr t)
        (pathStr r.path)) (pathStr (r.path ++ ["bin"] ++ rel)) ∧
      mentions (escape_message (pathStr (r.path ++ ["bin"] ++ rel)) (pathStr t)
        (pathStr r.path)) (pathStr t) ∧
      (∀ x ∈ st₀.bin_entries, x.2.1 ++ ["bin"] ++ x.2.2 ≠ t) := by
  obtain ⟨rel, t, hesc', hval⟩ := validate_entries_escape r.path r.entries hesc
  have hvd : validate_directory_symlinks r =
      some (escape_message (pathStr (r.path ++ ["bin"] ++ rel)) (pathStr t)
        (pathStr r.path)) := hval
  have hproc := process_roots_error_after (limits env).1 (limits env).2 pre 0
    ResolveSt.empty st₀ r post _ hpre hbin hvd
  have hne_nil : (pre ++ r :: post).isEmpty = false := by
    cases pre <;> rfl
  refine ⟨rel, t, hesc', ?_, escape_message_mentions_phrase _ _ _,
    escape_message_mentions_symlink _ _ _, escape_message_mentions_target _ _ _,
    ?_⟩
  · unfold resolve_toolboxes
    simp only [hne_nil, Bool.false_eq_true, if_false, hproc]
  · intro x hx h_eq
    have hx' := process_roots_entries_sub (limits env).1 (limits env).2 pre 0
      ResolveSt.empty x (by rw [hpre]; exact hx)
    rcases hx' with hin | hrp
    · exact absurd hin (List.not_mem_nil x)
    · obtain ⟨qr, hq, hqpath⟩ := List.mem_map.mp hrp
      have hpref : (x.2.1 ++ ["bin"]).isPrefixOf t = true := by
        rw [← h_eq]
        exact isPrefixOf_append_self (x.2.1 ++ ["bin"]) x.2.2
      have hfalse := htgt t hesc' qr hq
      rw [hqpath] at hfalse
      rw [hfalse] at hpref
      exact Bool.noConfusion hpref

/-- Witness for C3: a single root whose `bin/` holds one symlink with an
absolute target outside the root. -/
theorem c3_symlink_escape_rejected_witness :
    process_roots (limits []).1 (limits []).2 0 [] ResolveSt.empty =
      (ResolveSt.empty, none) ∧
    (⟨["R"], true, [⟨["evil"], FsNode.symlink ["etc", "passwd"]⟩]⟩ :
      ToolboxRoot).hasBin = true ∧
    (∃ e ∈ (⟨["R"], true, [⟨["evil"], FsNode.symlink ["etc", "passwd"]⟩]⟩ :
        ToolboxRoot).entries, ∃ t, e.node = FsNode.symlink t ∧
      (["R"] : List String).isPrefixOf t = false) ∧
    (∃ rel t,
      (["R"] : List String).isPrefixOf t = false ∧
      resolve_toolboxes []
        [⟨["R"], true, [⟨["evil"], FsNode.symlink ["etc", "passwd"]⟩]⟩] false =
        (ResolveSt.empty, .error (escape_message
          (pathStr (["R"] ++ ["bin"] ++ rel)) (pathStr t) (pathStr ["R"]))) ∧
      mentions (escape_message (pathStr (["R"] ++ ["bin"] ++ rel)) (pathStr t)
        (pathStr ["R"])) "escapes toolbox root" ∧
      mentions (escape_message (pathStr (["R"] ++ ["bin"] ++ rel)) (pathStr t)
        (pathStr ["R"])) (pathStr (["R"] ++ ["bin"] ++ rel)) ∧
      mentions (escape_message (pathStr (["R"] ++ ["bin"] ++ rel)) (pathStr t)
        (pathStr ["R"])) (pathStr t) ∧
      (∀ x ∈ ResolveSt.empty.bin_entries, x.2.1 ++ ["bin"] ++ x.2.2 ≠ t)) :=
  ⟨rfl, rfl,
    ⟨⟨["evil"], FsNode.symlink ["etc", "passwd"]⟩, by decide,
      ["etc", "passwd"], rfl, by decide⟩,
    c3_symlink_escape_rejected [] false []
      ⟨["R"], true, [⟨["evil"], FsNode.symlink ["etc", "passwd"]⟩]⟩ []
      ResolveSt.empty rfl rfl
      ⟨⟨["evil"], FsNode.symlink ["etc", "passwd"]⟩, by decide,
        ["etc", "passwd"], rfl, by decide⟩
      (fun _ _ q hq => absurd hq (List.not_mem_nil q))⟩
